import Mathlib

/-!
Verification of the airline-ticket batch ticket-generation pipeline.

The frontend source (src/frontend/src/lib/api.ts and the page components)
is embedded directly.  The Python backend (Record Extractor, Rendering
Gateway, Batch Orchestrator, Status and Catalog Store, Artifact Packager)
is not part of the shipped sources, so those components are modelled from
the specification; each such definition carries a doc comment starting
with "Modelled from the spec:".
-/

namespace AirlineTickets

/-- Per-record render error taxonomy, from spec section 7: RowValidationError,
RenderTimeout, renderer-reported errors (template missing, malformed data,
renderer unavailable). -/
inductive RenderError where
  | rowValidationError
  | renderTimeout
  | templateMissing
  | malformedData
  | rendererUnavailable
  deriving DecidableEq

/-- Job lifecycle state, from PassengerInfo.status in
src/frontend/src/lib/api.ts: "pending" | "generated" | "failed",
with pdf_filename set on success and error detail on failure. -/
inductive JobState where
  | pending
  | generated (pdf_filename : String)
  | failed (err : RenderError)
  deriving DecidableEq

/-- One passenger reservation record, from PassengerInfo in
src/frontend/src/lib/api.ts (no, pax_name, pnr, ticket_type). -/
structure PassengerRecord where
  no : Nat
  pax_name : String
  pnr : String
  ticket_type : String
  deriving DecidableEq

/-- Modelled from the spec: a RenderJob holds its record and its mutable
lifecycle state (spec section 3). -/
structure RenderJob where
  record : PassengerRecord
  state : JobState
  deriving DecidableEq

def JobState.isPending : JobState → Bool
  | .pending => true
  | _ => false

def JobState.isGenerated : JobState → Bool
  | .generated _ => true
  | _ => false

def JobState.isFailed : JobState → Bool
  | .failed _ => true
  | _ => false

/-- A state is terminal when it is generated or failed (spec section 3). -/
def JobState.isTerminal : JobState → Bool
  | .pending => false
  | _ => true

/-- Aggregate batch status, from BatchInfo.status in
src/frontend/src/lib/api.ts: "processing" | "completed" | "failed". -/
inductive BatchStatus where
  | processing
  | completed
  | failed
  deriving DecidableEq

/-- Modelled from the spec: a Batch owns its ordered job sequence, the
originating filename, and whether extraction itself failed
(spec section 3). -/
structure Batch where
  batch_id : String
  excel_filename : String
  extraction_failed : Bool
  jobs : List RenderJob

/-- Modelled from the spec: aggregate counts are always computed from the
job sequence, never cached independently (spec sections 3 and 4.4). -/
def generatedCount (jobs : List RenderJob) : Nat :=
  jobs.countP (fun j => j.state.isGenerated)

def failedCount (jobs : List RenderJob) : Nat :=
  jobs.countP (fun j => j.state.isFailed)

def pendingCount (jobs : List RenderJob) : Nat :=
  jobs.countP (fun j => j.state.isPending)

/-- Modelled from the spec: batch status invariant of spec section 3 —
failed if extraction failed, processing while any job is pending,
completed once every job is terminal and at least one is generated,
failed otherwise (every job failed). -/
def batchStatus (b : Batch) : BatchStatus :=
  if b.extraction_failed then .failed
  else if 0 < pendingCount b.jobs then .processing
  else if 0 < generatedCount b.jobs then .completed
  else .failed

/-- Status snapshot returned by the poll read path, from
BatchStatusResponse in src/frontend/src/lib/api.ts; modelled from the
spec in that all fields are computed from the same job sequence at read
time (spec section 4.4). -/
structure BatchStatusResponse where
  batch_id : String
  status : BatchStatus
  total_passengers : Nat
  generated : Nat
  failed : Nat
  pending : Nat
  deriving DecidableEq

/-- Modelled from the spec: the status/poll read path computes one
consistent snapshot from the job sequence (spec sections 4.4 and 7). -/
def getBatchStatus (b : Batch) : BatchStatusResponse :=
  { batch_id := b.batch_id
    status := batchStatus b
    total_passengers := b.jobs.length
    generated := generatedCount b.jobs
    failed := failedCount b.jobs
    pending := pendingCount b.jobs }

lemma counts_sum (jobs : List RenderJob) :
    generatedCount jobs + failedCount jobs + pendingCount jobs = jobs.length := by
  induction jobs with
  | nil => rfl
  | cons j rest ih =>
    have hj : (if j.state.isGenerated then 1 else 0)
        + (if j.state.isFailed then 1 else 0)
        + (if j.state.isPending then 1 else 0) = 1 := by
      cases j.state <;> rfl
    unfold generatedCount failedCount pendingCount at ih ⊢
    simp only [List.countP_cons, List.length_cons]
    omega

lemma batchStatus_completed_pending (b : Batch)
    (h : batchStatus b = .completed) : pendingCount b.jobs = 0 := by
  unfold batchStatus at h
  split at h
  · exact absurd h (by simp)
  · split at h
    · exact absurd h (by simp)
    · omega

/-- C1: every snapshot returned by the status/poll read path satisfies
generated + failed + pending = total_passengers, and a snapshot whose
status is completed never has a pending job. -/
theorem snapshot_counts_consistent (b : Batch) :
    (getBatchStatus b).generated + (getBatchStatus b).failed
        + (getBatchStatus b).pending = (getBatchStatus b).total_passengers
    ∧ ((getBatchStatus b).status = .completed → (getBatchStatus b).pending = 0) := by
  refine ⟨counts_sum b.jobs, fun h => ?_⟩
  exact batchStatus_completed_pending b h

/-- C1 witness: the invariant evaluated on a concrete two-job batch whose
status is completed. -/
theorem snapshot_counts_consistent_witness :
    (getBatchStatus ⟨"b1", "f.xlsx", false,
        [⟨⟨1, "A", "P1", "OW"⟩, .generated "t1.pdf"⟩,
         ⟨⟨2, "B", "P2", "OW"⟩, .failed .renderTimeout⟩]⟩).generated
      + (getBatchStatus ⟨"b1", "f.xlsx", false,
        [⟨⟨1, "A", "P1", "OW"⟩, .generated "t1.pdf"⟩,
         ⟨⟨2, "B", "P2", "OW"⟩, .failed .renderTimeout⟩]⟩).failed
      + (getBatchStatus ⟨"b1", "f.xlsx", false,
        [⟨⟨1, "A", "P1", "OW"⟩, .generated "t1.pdf"⟩,
         ⟨⟨2, "B", "P2", "OW"⟩, .failed .renderTimeout⟩]⟩).pending
      = (getBatchStatus ⟨"b1", "f.xlsx", false,
        [⟨⟨1, "A", "P1", "OW"⟩, .generated "t1.pdf"⟩,
         ⟨⟨2, "B", "P2", "OW"⟩, .failed .renderTimeout⟩]⟩).total_passengers
    ∧ ((getBatchStatus ⟨"b1", "f.xlsx", false,
        [⟨⟨1, "A", "P1", "OW"⟩, .generated "t1.pdf"⟩,
         ⟨⟨2, "B", "P2", "OW"⟩, .failed .renderTimeout⟩]⟩).status = .completed
       → (getBatchStatus ⟨"b1", "f.xlsx", false,
        [⟨⟨1, "A", "P1", "OW"⟩, .generated "t1.pdf"⟩,
         ⟨⟨2, "B", "P2", "OW"⟩, .failed .renderTimeout⟩]⟩).pending = 0) :=
  snapshot_counts_consistent _

lemma isTerminal_eq_not_isPending (s : JobState) :
    s.isTerminal = !s.isPending := by
  cases s <;> rfl

lemma pendingCount_eq_zero_iff (jobs : List RenderJob) :
    pendingCount jobs = 0 ↔ ∀ j ∈ jobs, j.state.isTerminal = true := by
  unfold pendingCount
  rw [List.countP_eq_zero]
  constructor
  · intro h j hj
    have := h j hj
    rw [isTerminal_eq_not_isPending]
    simpa using this
  · intro h j hj
    have := h j hj
    rw [isTerminal_eq_not_isPending] at this
    simpa using this

/-- C2: the aggregate status is completed iff every job is terminal and at
least one is generated; failed iff extraction failed or no job generated
with every job failed; processing iff extraction succeeded and some job is
still pending.  The hypothesis records that a batch whose extraction
failed owns no jobs (extraction produced no records). -/
theorem batchStatus_characterization (b : Batch)
    (hwf : b.extraction_failed = true → b.jobs = []) :
    (batchStatus b = .completed ↔
      ((∀ j ∈ b.jobs, j.state.isTerminal = true) ∧ 0 < generatedCount b.jobs))
    ∧ (batchStatus b = .failed ↔
      (b.extraction_failed = true ∨
        (generatedCount b.jobs = 0 ∧ failedCount b.jobs = b.jobs.length)))
    ∧ (batchStatus b = .processing ↔
      (b.extraction_failed = false ∧ 0 < pendingCount b.jobs)) := by
  have hsum := counts_sum b.jobs
  by_cases hef : b.extraction_failed = true
  · have hjobs : b.jobs = [] := hwf hef
    have hst : batchStatus b = .failed := by
      unfold batchStatus
      rw [if_pos hef]
    refine ⟨?_, ?_, ?_⟩
    · rw [hst]
      constructor
      · intro h
        exact absurd h (by decide)
      · rintro ⟨_, hg⟩
        exfalso
        rw [hjobs] at hg
        simp [generatedCount] at hg
    · rw [hst]
      exact ⟨fun _ => Or.inl hef, fun _ => rfl⟩
    · rw [hst]
      constructor
      · intro h
        exact absurd h (by decide)
      · rintro ⟨h, _⟩
        rw [hef] at h
        exact absurd h (by decide)
  · have hef' : b.extraction_failed = false := by
      cases h : b.extraction_failed
      · rfl
      · exact absurd h hef
    by_cases hp : 0 < pendingCount b.jobs
    · have hst : batchStatus b = .processing := by
        unfold batchStatus
        rw [if_neg hef, if_pos hp]
      have hnt : ¬ (∀ j ∈ b.jobs, j.state.isTerminal = true) := by
        intro hall
        rw [← pendingCount_eq_zero_iff] at hall
        omega
      refine ⟨?_, ?_, ?_⟩
      · rw [hst]
        constructor
        · intro h
          exact absurd h (by decide)
        · rintro ⟨hall, _⟩
          exact absurd hall hnt
      · rw [hst]
        constructor
        · intro h
          exact absurd h (by decide)
        · rintro (h | ⟨hg0, hfl⟩)
          · exact absurd h hef
          · exfalso
            omega
      · rw [hst]
        exact ⟨fun _ => ⟨hef', hp⟩, fun _ => rfl⟩
    · have hp0 : pendingCount b.jobs = 0 := by omega
      have hterm : ∀ j ∈ b.jobs, j.state.isTerminal = true :=
        (pendingCount_eq_zero_iff b.jobs).mp hp0
      by_cases hg : 0 < generatedCount b.jobs
      · have hst : batchStatus b = .completed := by
          unfold batchStatus
          rw [if_neg hef, if_neg hp, if_pos hg]
        refine ⟨?_, ?_, ?_⟩
        · rw [hst]
          exact ⟨fun _ => ⟨hterm, hg⟩, fun _ => rfl⟩
        · rw [hst]
          constructor
          · intro h
            exact absurd h (by decide)
          · rintro (h | ⟨hg0, _⟩)
            · exact absurd h hef
            · exfalso
              omega
        · rw [hst]
          constructor
          · intro h
            exact absurd h (by decide)
          · rintro ⟨_, hp1⟩
            exfalso
            omega
      · have hst : batchStatus b = .failed := by
          unfold batchStatus
          rw [if_neg hef, if_neg hp, if_neg hg]
        refine ⟨?_, ?_, ?_⟩
        · rw [hst]
          constructor
          · intro h
            exact absurd h (by decide)
          · rintro ⟨_, hg1⟩
            exfalso
            omega
        · rw [hst]
          refine ⟨fun _ => Or.inr ⟨by omega, by omega⟩, fun _ => rfl⟩
        · rw [hst]
          constructor
          · intro h
            exact absurd h (by decide)
          · rintro ⟨_, hp1⟩
            exfalso
            omega

/-- C2 witness: the characterization evaluated on a concrete completed
batch. -/
theorem batchStatus_characterization_witness :
    (batchStatus ⟨"b2", "g.xlsx", false,
        [⟨⟨1, "A", "P1", "OW"⟩, .generated "t1.pdf"⟩]⟩ = .completed ↔
      ((∀ j ∈ [(⟨⟨1, "A", "P1", "OW"⟩, .generated "t1.pdf"⟩ : RenderJob)],
          j.state.isTerminal = true)
        ∧ 0 < generatedCount [⟨⟨1, "A", "P1", "OW"⟩, .generated "t1.pdf"⟩]))
    ∧ (batchStatus ⟨"b2", "g.xlsx", false,
        [⟨⟨1, "A", "P1", "OW"⟩, .generated "t1.pdf"⟩]⟩ = .failed ↔
      (false = true ∨
        (generatedCount [⟨⟨1, "A", "P1", "OW"⟩, .generated "t1.pdf"⟩] = 0
          ∧ failedCount [⟨⟨1, "A", "P1", "OW"⟩, .generated "t1.pdf"⟩]
            = [(⟨⟨1, "A", "P1", "OW"⟩, .generated "t1.pdf"⟩ : RenderJob)].length)))
    ∧ (batchStatus ⟨"b2", "g.xlsx", false,
        [⟨⟨1, "A", "P1", "OW"⟩, .generated "t1.pdf"⟩]⟩ = .processing ↔
      (false = false
        ∧ 0 < pendingCount [⟨⟨1, "A", "P1", "OW"⟩, .generated "t1.pdf"⟩])) :=
  batchStatus_characterization _ (by intro h; exact absurd h (by decide))

/-- Modelled from the spec: the Status and Catalog Store is the single
writer of job state; the only transition it ever commits is a pending job
moving to a terminal state (spec sections 3, 4.3 step 3 and 4.4). -/
inductive StoreStep : List RenderJob → List RenderJob → Prop
  | commit (jobs : List RenderJob) (i : Nat) (j : RenderJob) (s : JobState) :
      jobs[i]? = some j → j.state = .pending → s.isTerminal = true →
      StoreStep jobs (jobs.set i { j with state := s })

/-- C3: along every reachable sequence of store updates, a job that is in
a terminal state never changes again. -/
theorem terminal_states_never_revert (s t : List RenderJob)
    (hreach : Relation.ReflTransGen StoreStep s t)
    (i : Nat) (j : RenderJob)
    (hj : s[i]? = some j) (hterm : j.state.isTerminal = true) :
    t[i]? = some j := by
  induction hreach with
  | refl => exact hj
  | tail _ hstep ih =>
    cases hstep with
    | commit k jk sk hk hkp hkt =>
      by_cases hik : k = i
      · subst hik
        rw [ih] at hk
        injection hk with hk
        subst hk
        rw [hkp] at hterm
        exact absurd hterm (by simp [JobState.isTerminal])
      · rw [List.getElem?_set_ne hik]
        exact ih

/-- C3 witness: a generated job survives the reflexive chain of store
updates unchanged. -/
theorem terminal_states_never_revert_witness :
    [(⟨⟨1, "A", "P1", "OW"⟩, .generated "t1.pdf"⟩ : RenderJob)][0]?
      = some ⟨⟨1, "A", "P1", "OW"⟩, .generated "t1.pdf"⟩ :=
  terminal_states_never_revert _ _ Relation.ReflTransGen.refl 0 _ rfl rfl

/-- Modelled from the spec: the Rendering Gateway contract
render(passengerRecord) → Result documentBytes RenderError
(spec section 4.2). -/
inductive RenderResult where
  | ok (documentBytes : String)
  | err (e : RenderError)
  deriving DecidableEq

/-- Modelled from the spec: the deterministic artifact filename derived
from batch id, record sequence number and passenger name
(spec section 3, Artifact). -/
def artifactFilename (batchId : String) (rec : PassengerRecord) : String :=
  batchId ++ "_" ++ toString rec.no ++ "_" ++ rec.pax_name ++ ".pdf"

/-- Modelled from the spec: bulk-fail helper — a still-pending job is
marked failed with the given reason, a terminal job keeps its outcome
(spec section 4.3 step 4). -/
def failIfPending (e : RenderError) (j : RenderJob) : RenderJob :=
  if j.state = .pending then { j with state := .failed e } else j

/-- Modelled from the spec: the Orchestrator runs the jobs of one batch
against the Rendering Gateway (spec section 4.3).  The Bool flag records
whether the renderer is still believed available; once the gateway
reports RendererUnavailable all remaining pending jobs are failed with
that reason without invoking the renderer again.  Returns the final job
sequence and the number of renderer invocations performed. -/
def runJobs (render : PassengerRecord → RenderResult) (batchId : String) :
    Bool → List RenderJob → List RenderJob × Nat
  | _, [] => ([], 0)
  | false, j :: rest =>
    let r := runJobs render batchId false rest
    (failIfPending .rendererUnavailable j :: r.1, r.2)
  | true, j :: rest =>
    if j.state = .pending then
      match render j.record with
      | .ok _ =>
        let r := runJobs render batchId true rest
        ({ j with state := .generated (artifactFilename batchId j.record) } :: r.1,
          r.2 + 1)
      | .err .rendererUnavailable =>
        let r := runJobs render batchId false rest
        ({ j with state := .failed .rendererUnavailable } :: r.1, r.2 + 1)
      | .err e =>
        let r := runJobs render batchId true rest
        ({ j with state := .failed e } :: r.1, r.2 + 1)
    else
      let r := runJobs render batchId true rest
      (j :: r.1, r.2)

lemma runJobs_down (render : PassengerRecord → RenderResult) (batchId : String)
    (jobs : List RenderJob) :
    runJobs render batchId false jobs
      = (jobs.map (failIfPending .rendererUnavailable), 0) := by
  induction jobs with
  | nil => rfl
  | cons j rest ih => simp [runJobs, ih]

lemma runJobs_terminal_cons (render : PassengerRecord → RenderResult)
    (batchId : String) (j : RenderJob) (rest : List RenderJob)
    (h : j.state ≠ .pending) :
    runJobs render batchId true (j :: rest)
      = (j :: (runJobs render batchId true rest).1,
          (runJobs render batchId true rest).2) := by
  simp [runJobs, h]

lemma isTerminal_ne_pending (s : JobState) (h : s.isTerminal = true) :
    s ≠ .pending := by
  cases s with
  | pending => exact absurd h (by decide)
  | generated f => exact fun hc => by injection hc
  | failed e => exact fun hc => by injection hc

lemma isGenerated_failIfPending (e : RenderError) (j : RenderJob) :
    (failIfPending e j).state.isGenerated = j.state.isGenerated := by
  unfold failIfPending
  by_cases h : j.state = .pending
  · rw [if_pos h, h]
    rfl
  · rw [if_neg h]

lemma isPending_failIfPending (e : RenderError) (j : RenderJob) :
    (failIfPending e j).state.isPending = false := by
  unfold failIfPending
  by_cases h : j.state = .pending
  · rw [if_pos h]
    rfl
  · rw [if_neg h]
    cases hs : j.state with
    | pending => exact absurd hs h
    | generated f => rfl
    | failed e2 => rfl

lemma generatedCount_map_failIfPending (e : RenderError) (jobs : List RenderJob) :
    generatedCount (jobs.map (failIfPending e)) = generatedCount jobs := by
  induction jobs with
  | nil => rfl
  | cons j rest ih =>
    unfold generatedCount at *
    simp only [List.map_cons, List.countP_cons, isGenerated_failIfPending, ih]

lemma pendingCount_map_failIfPending (e : RenderError) (jobs : List RenderJob) :
    pendingCount (jobs.map (failIfPending e)) = 0 := by
  induction jobs with
  | nil => rfl
  | cons j rest ih =>
    unfold pendingCount at *
    simp only [List.map_cons, List.countP_cons, isPending_failIfPending, ih]
    rfl

lemma batchStatus_completed_of (bid fn : String) (jobs : List RenderJob)
    (hp : pendingCount jobs = 0) (hg : 0 < generatedCount jobs) :
    batchStatus ⟨bid, fn, false, jobs⟩ = .completed := by
  unfold batchStatus
  dsimp only
  rw [if_neg (by decide : ¬ (false : Bool) = true), if_neg (by omega), if_pos hg]

lemma countP_terminal_all {p : RenderJob → Bool} (jobs : List RenderJob)
    (hall : ∀ j ∈ jobs, p j = false) : jobs.countP p = 0 := by
  rw [List.countP_eq_zero]
  intro j hj
  simp [hall j hj]

/-- C4: when the gateway reports RendererUnavailable for the pending job
j of a batch whose earlier jobs are already terminal, the orchestrator
fails j and every remaining pending job with that reason, keeps every
terminal outcome, performs exactly one renderer invocation in total, and
the finished batch is completed iff some job had generated. -/
theorem rendererUnavailable_short_circuit
    (render : PassengerRecord → RenderResult) (batchId fn : String)
    (pre : List RenderJob) (j : RenderJob) (rest : List RenderJob)
    (hpre : ∀ p ∈ pre, p.state.isTerminal = true)
    (hj : j.state = .pending)
    (hr : render j.record = .err .rendererUnavailable) :
    runJobs render batchId true (pre ++ j :: rest)
      = (pre ++ { j with state := .failed .rendererUnavailable }
            :: rest.map (failIfPending .rendererUnavailable), 1)
    ∧ (batchStatus ⟨batchId, fn, false,
          (runJobs render batchId true (pre ++ j :: rest)).1⟩ = .completed
        ↔ 0 < generatedCount pre + generatedCount rest) := by
  have hrun : runJobs render batchId true (pre ++ j :: rest)
      = (pre ++ { j with state := .failed .rendererUnavailable }
            :: rest.map (failIfPending .rendererUnavailable), 1) := by
    induction pre with
    | nil =>
      simp only [List.nil_append]
      simp [runJobs, hj, hr, runJobs_down]
    | cons p ptl ih =>
      have hpterm : p.state ≠ .pending :=
        isTerminal_ne_pending _ (hpre p (by simp))
      have ih2 := ih (fun q hq => hpre q (by simp [hq]))
      rw [List.cons_append, runJobs_terminal_cons render batchId p _ hpterm, ih2]
      rfl
  refine ⟨hrun, ?_⟩
  rw [hrun]
  have hpend : pendingCount
      (pre ++ { j with state := .failed .rendererUnavailable }
        :: rest.map (failIfPending .rendererUnavailable)) = 0 := by
    unfold pendingCount at *
    rw [List.countP_append, List.countP_cons]
    have h1 : List.countP (fun q => q.state.isPending) pre = 0 :=
      countP_terminal_all pre (fun q hq => by
        have := hpre q hq
        rw [isTerminal_eq_not_isPending] at this
        simpa using this)
    have h2 := pendingCount_map_failIfPending .rendererUnavailable rest
    unfold pendingCount at h2
    simp only [h1, h2]
    rfl
  have hgen : generatedCount
      (pre ++ { j with state := .failed .rendererUnavailable }
        :: rest.map (failIfPending .rendererUnavailable))
      = generatedCount pre + generatedCount rest := by
    unfold generatedCount at *
    rw [List.countP_append, List.countP_cons]
    have h2 := generatedCount_map_failIfPending .rendererUnavailable rest
    unfold generatedCount at h2
    simp only [h2]
    rfl
  unfold batchStatus
  simp only [if_neg (by decide : ¬ (false : Bool) = true), hpend, hgen]
  constructor
  · intro h
    by_cases hg : 0 < generatedCount pre + generatedCount rest
    · exact hg
    · exfalso
      rw [if_neg (by omega), if_neg (by omega)] at h
      exact absurd h (by decide)
  · intro hg
    rw [if_neg (by omega), if_pos (by omega)]

/-- C4 witness: the spec scenario — five jobs, the first two already
terminal with at least one generated, the renderer unavailable from job
three on; jobs three to five fail with RendererUnavailable after a single
further renderer call and the batch completes. -/
theorem rendererUnavailable_short_circuit_witness :
    runJobs (fun _ => .err .rendererUnavailable) "b4" true
        ([⟨⟨1, "A", "P1", "OW"⟩, .generated "a.pdf"⟩,
          ⟨⟨2, "B", "P2", "OW"⟩, .generated "b.pdf"⟩]
          ++ ⟨⟨3, "C", "P3", "OW"⟩, .pending⟩
            :: [⟨⟨4, "D", "P4", "OW"⟩, .pending⟩,
                ⟨⟨5, "E", "P5", "OW"⟩, .pending⟩])
      = ([⟨⟨1, "A", "P1", "OW"⟩, .generated "a.pdf"⟩,
          ⟨⟨2, "B", "P2", "OW"⟩, .generated "b.pdf"⟩]
          ++ ⟨⟨3, "C", "P3", "OW"⟩, .failed .rendererUnavailable⟩
            :: [⟨⟨4, "D", "P4", "OW"⟩, .pending⟩,
                ⟨⟨5, "E", "P5", "OW"⟩, .pending⟩].map
                  (failIfPending .rendererUnavailable), 1)
    ∧ (batchStatus ⟨"b4", "f.xlsx", false,
          (runJobs (fun _ => .err .rendererUnavailable) "b4" true
            ([⟨⟨1, "A", "P1", "OW"⟩, .generated "a.pdf"⟩,
              ⟨⟨2, "B", "P2", "OW"⟩, .generated "b.pdf"⟩]
              ++ ⟨⟨3, "C", "P3", "OW"⟩, .pending⟩
                :: [⟨⟨4, "D", "P4", "OW"⟩, .pending⟩,
                    ⟨⟨5, "E", "P5", "OW"⟩, .pending⟩])).1⟩ = .completed
        ↔ 0 < generatedCount
              [⟨⟨1, "A", "P1", "OW"⟩, .generated "a.pdf"⟩,
               ⟨⟨2, "B", "P2", "OW"⟩, .generated "b.pdf"⟩]
            + generatedCount
              [⟨⟨4, "D", "P4", "OW"⟩, .pending⟩,
               ⟨⟨5, "E", "P5", "OW"⟩, .pending⟩]) :=
  rendererUnavailable_short_circuit _ _ _ _ _ _ (by decide) rfl rfl

/-- Caller-facing request errors on packaging and lookups
(spec section 7). -/
inductive RequestError where
  | batchNotReady
  | notFound
  deriving DecidableEq

/-- Modelled from the spec: the filenames of the artifacts of the jobs in
generated state, in job order (spec section 4.5). -/
def generatedFilenames (jobs : List RenderJob) : List String :=
  jobs.filterMap (fun j =>
    match j.state with
    | .generated f => some f
    | _ => none)

/-- Modelled from the spec: the Artifact Packager —
packageBatch(batchId) → archiveBytes, available once batch status is
completed, a BatchNotReady error earlier; the archive holds exactly the
artifacts of the jobs in generated state (spec section 4.5). -/
def packageBatch (b : Batch) : Except RequestError (List String) :=
  if batchStatus b = .completed then .ok (generatedFilenames b.jobs)
  else .error .batchNotReady

lemma length_generatedFilenames (jobs : List RenderJob) :
    (generatedFilenames jobs).length = generatedCount jobs := by
  induction jobs with
  | nil => rfl
  | cons j rest ih =>
    unfold generatedFilenames generatedCount at *
    cases hs : j.state with
    | pending =>
      simp only [List.filterMap_cons, List.countP_cons, hs]
      simpa using ih
    | generated f =>
      simp only [List.filterMap_cons, List.countP_cons, hs]
      simp [JobState.isGenerated, ih]
    | failed e =>
      simp only [List.filterMap_cons, List.countP_cons, hs]
      simpa using ih

/-- C5: packaging a completed batch yields exactly the artifacts of its
generated jobs — as many artifacts as there are generated jobs — and
packaging a batch that is not completed yields a BatchNotReady error
rather than a half-filled or empty archive. -/
theorem packageBatch_spec (b : Batch) :
    (batchStatus b = .completed →
      packageBatch b = .ok (generatedFilenames b.jobs)
      ∧ (generatedFilenames b.jobs).length = generatedCount b.jobs
      ∧ generatedCount b.jobs + failedCount b.jobs = b.jobs.length)
    ∧ (batchStatus b ≠ .completed → packageBatch b = .error .batchNotReady) := by
  constructor
  · intro h
    have hp0 := batchStatus_completed_pending b h
    have hsum := counts_sum b.jobs
    refine ⟨?_, length_generatedFilenames b.jobs, by omega⟩
    unfold packageBatch
    rw [if_pos h]
  · intro h
    unfold packageBatch
    rw [if_neg h]

/-- C5 witness: a completed batch with one generated and one failed job
packages into exactly one artifact. -/
theorem packageBatch_spec_witness :
    (batchStatus ⟨"b5", "h.xlsx", false,
        [⟨⟨1, "A", "P1", "OW"⟩, .generated "a.pdf"⟩,
         ⟨⟨2, "B", "P2", "OW"⟩, .failed .renderTimeout⟩]⟩ = .completed →
      packageBatch ⟨"b5", "h.xlsx", false,
        [⟨⟨1, "A", "P1", "OW"⟩, .generated "a.pdf"⟩,
         ⟨⟨2, "B", "P2", "OW"⟩, .failed .renderTimeout⟩]⟩
        = .ok (generatedFilenames
            [⟨⟨1, "A", "P1", "OW"⟩, .generated "a.pdf"⟩,
             ⟨⟨2, "B", "P2", "OW"⟩, .failed .renderTimeout⟩])
      ∧ (generatedFilenames
            [⟨⟨1, "A", "P1", "OW"⟩, .generated "a.pdf"⟩,
             ⟨⟨2, "B", "P2", "OW"⟩, .failed .renderTimeout⟩]).length
          = generatedCount
            [⟨⟨1, "A", "P1", "OW"⟩, .generated "a.pdf"⟩,
             ⟨⟨2, "B", "P2", "OW"⟩, .failed .renderTimeout⟩]
      ∧ generatedCount
            [⟨⟨1, "A", "P1", "OW"⟩, .generated "a.pdf"⟩,
             ⟨⟨2, "B", "P2", "OW"⟩, .failed .renderTimeout⟩]
          + failedCount
            [⟨⟨1, "A", "P1", "OW"⟩, .generated "a.pdf"⟩,
             ⟨⟨2, "B", "P2", "OW"⟩, .failed .renderTimeout⟩]
          = [(⟨⟨1, "A", "P1", "OW"⟩, .generated "a.pdf"⟩ : RenderJob),
             ⟨⟨2, "B", "P2", "OW"⟩, .failed .renderTimeout⟩].length)
    ∧ (batchStatus ⟨"b5", "h.xlsx", false,
        [⟨⟨1, "A", "P1", "OW"⟩, .generated "a.pdf"⟩,
         ⟨⟨2, "B", "P2", "OW"⟩, .failed .renderTimeout⟩]⟩ ≠ .completed →
      packageBatch ⟨"b5", "h.xlsx", false,
        [⟨⟨1, "A", "P1", "OW"⟩, .generated "a.pdf"⟩,
         ⟨⟨2, "B", "P2", "OW"⟩, .failed .renderTimeout⟩]⟩
        = .error .batchNotReady) :=
  packageBatch_spec _

/-- Modelled from the spec: one row of the uploaded sheet before
validation (spec section 4.1). -/
structure SheetRow where
  pax_name : String
  pnr : String
  ticket_type : String
  deriving DecidableEq

/-- Modelled from the spec: a row is valid when its passenger name and
reservation reference are both non-empty (spec section 4.1). -/
def rowValid (r : SheetRow) : Bool :=
  !(r.pax_name == "") && !(r.pnr == "")

/-- Modelled from the spec: a row becomes one RenderJob with a stable
1-based sequence number; an invalid row is surfaced as an
already-failed job with RowValidationError instead of being dropped
(spec section 4.1). -/
def extractJob (i : Nat) (r : SheetRow) : RenderJob :=
  { record := ⟨i + 1, r.pax_name, r.pnr, r.ticket_type⟩
    state := if rowValid r then .pending else .failed .rowValidationError }

/-- Modelled from the spec: extraction walks the rows in order assigning
sequence numbers from i (spec section 4.1). -/
def extractFrom (i : Nat) : List SheetRow → List RenderJob
  | [] => []
  | r :: rest => extractJob i r :: extractFrom (i + 1) rest

/-- Modelled from the spec: extract(fileBytes, declaredName) over the
parsed rows, sequence numbers starting at 1 (spec section 4.1). -/
def extract (rows : List SheetRow) : List RenderJob :=
  extractFrom 0 rows

lemma extractFrom_length (i : Nat) (rows : List SheetRow) :
    (extractFrom i rows).length = rows.length := by
  induction rows generalizing i with
  | nil => rfl
  | cons r rest ih => simp [extractFrom, ih]

lemma extractFrom_getElem? (rows : List SheetRow) (i k : Nat) :
    (extractFrom i rows)[k]? = (rows[k]?).map (fun r => extractJob (i + k) r) := by
  induction rows generalizing i k with
  | nil => simp [extractFrom]
  | cons r rest ih =>
    cases k with
    | zero => simp [extractFrom]
    | succ k2 =>
      simp only [extractFrom, List.getElem?_cons_succ, ih (i + 1) k2]
      have : i + 1 + k2 = i + (k2 + 1) := by omega
      rw [this]

/-- Modelled from the spec: the terminal state a worker commits for a job
whose render succeeded; terminal jobs are left untouched
(spec section 4.3 step 3). -/
def completeOk (batchId : String) (j : RenderJob) : RenderJob :=
  if j.state = .pending then
    { j with state := .generated (artifactFilename batchId j.record) }
  else j

lemma runJobs_allOk (render : PassengerRecord → RenderResult)
    (batchId : String) (jobs : List RenderJob)
    (hr : ∀ rec, ∃ bytes, render rec = .ok bytes) :
    runJobs render batchId true jobs
      = (jobs.map (completeOk batchId), pendingCount jobs) := by
  induction jobs with
  | nil => rfl
  | cons j rest ih =>
    by_cases hp : j.state = .pending
    · obtain ⟨bytes, hb⟩ := hr j.record
      unfold pendingCount at *
      simp [runJobs, hp, hb, ih, completeOk, List.countP_cons, JobState.isPending]
    · unfold pendingCount at *
      rw [runJobs_terminal_cons render batchId j rest hp, ih]
      have hip : j.state.isPending = false := by
        cases hs : j.state with
        | pending => exact absurd hs hp
        | generated f => rfl
        | failed e => rfl
      simp [List.countP_cons, hip, completeOk, hp]

lemma generatedCount_run_extractFrom (batchId : String) (i : Nat)
    (rows : List SheetRow) :
    generatedCount ((extractFrom i rows).map (completeOk batchId))
      = rows.countP rowValid := by
  induction rows generalizing i with
  | nil => rfl
  | cons r rest ih =>
    unfold generatedCount at *
    simp only [extractFrom, List.map_cons, List.countP_cons, ih (i + 1)]
    by_cases hv : rowValid r
    · simp [extractJob, completeOk, hv, JobState.isGenerated]
    · simp [extractJob, completeOk, hv, JobState.isGenerated]

lemma failedCount_run_extractFrom (batchId : String) (i : Nat)
    (rows : List SheetRow) :
    failedCount ((extractFrom i rows).map (completeOk batchId))
      = rows.countP (fun r => !rowValid r) := by
  induction rows generalizing i with
  | nil => rfl
  | cons r rest ih =>
    unfold failedCount at *
    simp only [extractFrom, List.map_cons, List.countP_cons, ih (i + 1)]
    by_cases hv : rowValid r
    · simp [extractJob, completeOk, hv, JobState.isFailed]
    · simp [extractJob, completeOk, hv, JobState.isFailed]

lemma pendingCount_map_completeOk (batchId : String) (jobs : List RenderJob) :
    pendingCount (jobs.map (completeOk batchId)) = 0 := by
  induction jobs with
  | nil => rfl
  | cons j rest ih =>
    unfold pendingCount at *
    simp only [List.map_cons, List.countP_cons, ih]
    by_cases hp : j.state = .pending
    · simp [completeOk, hp, JobState.isPending]
    · have hip : j.state.isPending = false := by
        cases hs : j.state with
        | pending => exact absurd hs hp
        | generated f => rfl
        | failed e => rfl
      simp [completeOk, hp, hip]

/-- C6: extraction of an uploaded sheet keeps every row — an invalid row
(empty passenger name or reservation reference) becomes an
already-failed job with RowValidationError, a valid row a pending job —
so the total equals the row count; and when every render succeeds, the
finished batch has one generated job per valid row, one failed job per
invalid row, and status completed as soon as one row was valid. -/
theorem row_validation_failure_is_per_row (rows : List SheetRow)
    (render : PassengerRecord → RenderResult) (batchId fn : String)
    (hr : ∀ rec, ∃ bytes, render rec = .ok bytes) :
    (extract rows).length = rows.length
    ∧ (∀ (i : Nat) (r : SheetRow), rows[i]? = some r → rowValid r = false →
        ∃ job : RenderJob, (extract rows)[i]? = some job
          ∧ job.state = .failed .rowValidationError)
    ∧ (∀ (i : Nat) (r : SheetRow), rows[i]? = some r → rowValid r = true →
        ∃ job : RenderJob, (extract rows)[i]? = some job ∧ job.state = .pending)
    ∧ generatedCount (runJobs render batchId true (extract rows)).1
        = rows.countP rowValid
    ∧ failedCount (runJobs render batchId true (extract rows)).1
        = rows.countP (fun r => !rowValid r)
    ∧ (0 < rows.countP rowValid →
        batchStatus ⟨batchId, fn,
          false, (runJobs render batchId true (extract rows)).1⟩ = .completed) := by
  have hfinal := runJobs_allOk render batchId (extract rows) hr
  have hgen : generatedCount (runJobs render batchId true (extract rows)).1
      = rows.countP rowValid := by
    rw [hfinal]
    exact generatedCount_run_extractFrom batchId 0 rows
  have hfail : failedCount (runJobs render batchId true (extract rows)).1
      = rows.countP (fun r => !rowValid r) := by
    rw [hfinal]
    exact failedCount_run_extractFrom batchId 0 rows
  refine ⟨extractFrom_length 0 rows, ?_, ?_, hgen, hfail, ?_⟩
  · intro i r hi hv
    refine ⟨extractJob i r, ?_, ?_⟩
    · rw [extract, extractFrom_getElem?, hi]
      simp
    · simp [extractJob, hv]
  · intro i r hi hv
    refine ⟨extractJob i r, ?_, ?_⟩
    · rw [extract, extractFrom_getElem?, hi]
      simp
    · simp [extractJob, hv]
  · intro hv
    have hpend : pendingCount (runJobs render batchId true (extract rows)).1 = 0 := by
      rw [hfinal]
      exact pendingCount_map_completeOk batchId (extract rows)
    exact batchStatus_completed_of batchId fn _ hpend (by omega)

/-- C6 witness: the spec scenario — a 3-row sheet whose second row has an
empty passenger name yields total 3; row 2 is already failed with
RowValidationError; rows 1 and 3 render, giving generated 2, failed 1 and
final status completed. -/
theorem row_validation_failure_is_per_row_witness :
    (extract [⟨"A", "P1", "OW"⟩, ⟨"", "P2", "OW"⟩, ⟨"C", "P3", "OW"⟩]).length
      = [(⟨"A", "P1", "OW"⟩ : SheetRow), ⟨"", "P2", "OW"⟩, ⟨"C", "P3", "OW"⟩].length
    ∧ (∀ (i : Nat) (r : SheetRow),
        [(⟨"A", "P1", "OW"⟩ : SheetRow), ⟨"", "P2", "OW"⟩, ⟨"C", "P3", "OW"⟩][i]?
          = some r → rowValid r = false →
        ∃ job : RenderJob, (extract [⟨"A", "P1", "OW"⟩, ⟨"", "P2", "OW"⟩, ⟨"C", "P3", "OW"⟩])[i]?
            = some job
          ∧ job.state = .failed .rowValidationError)
    ∧ (∀ (i : Nat) (r : SheetRow),
        [(⟨"A", "P1", "OW"⟩ : SheetRow), ⟨"", "P2", "OW"⟩, ⟨"C", "P3", "OW"⟩][i]?
          = some r → rowValid r = true →
        ∃ job : RenderJob, (extract [⟨"A", "P1", "OW"⟩, ⟨"", "P2", "OW"⟩, ⟨"C", "P3", "OW"⟩])[i]?
            = some job ∧ job.state = .pending)
    ∧ generatedCount (runJobs (fun rec => .ok (rec.pnr ++ ".bytes")) "b6" true
          (extract [⟨"A", "P1", "OW"⟩, ⟨"", "P2", "OW"⟩, ⟨"C", "P3", "OW"⟩])).1
        = [(⟨"A", "P1", "OW"⟩ : SheetRow), ⟨"", "P2", "OW"⟩,
            ⟨"C", "P3", "OW"⟩].countP rowValid
    ∧ failedCount (runJobs (fun rec => .ok (rec.pnr ++ ".bytes")) "b6" true
          (extract [⟨"A", "P1", "OW"⟩, ⟨"", "P2", "OW"⟩, ⟨"C", "P3", "OW"⟩])).1
        = [(⟨"A", "P1", "OW"⟩ : SheetRow), ⟨"", "P2", "OW"⟩,
            ⟨"C", "P3", "OW"⟩].countP (fun r => !rowValid r)
    ∧ (0 < [(⟨"A", "P1", "OW"⟩ : SheetRow), ⟨"", "P2", "OW"⟩,
            ⟨"C", "P3", "OW"⟩].countP rowValid →
        batchStatus ⟨"b6", "f.xlsx", false,
          (runJobs (fun rec => .ok (rec.pnr ++ ".bytes")) "b6" true
            (extract [⟨"A", "P1", "OW"⟩, ⟨"", "P2", "OW"⟩,
              ⟨"C", "P3", "OW"⟩])).1⟩ = .completed) :=
  row_validation_failure_is_per_row _ _ _ "f.xlsx"
    (fun rec => ⟨rec.pnr ++ ".bytes", rfl⟩)

/-- Modelled from the spec: the Status and Catalog Store — a catalog of
batches keyed by batch id plus the tombstone set of deleted batch ids
(spec sections 4.4 and 5, Cancellation). -/
structure CatalogStore where
  entries : List (String × Batch)
  tombstones : List String

/-- Modelled from the spec: listBatches returns the ids of the catalogued
batches (spec section 4.4). -/
def listBatches (s : CatalogStore) : List String :=
  s.entries.map (fun e => e.1)

/-- Modelled from the spec: getBatch(batchId) → BatchDetail, NotFound when
the id is not catalogued (spec sections 4.4 and 7). -/
def getBatch (s : CatalogStore) (batchId : String) : Except RequestError Batch :=
  match s.entries.find? (fun e => e.1 == batchId) with
  | some e => .ok e.2
  | none => .error .notFound

/-- Modelled from the spec: deleteBatch removes the catalog entry and
tombstones the id immediately (spec sections 4.4 and 5, Cancellation). -/
def deleteBatch (s : CatalogStore) (batchId : String) : CatalogStore :=
  { entries := s.entries.filter (fun e => !(e.1 == batchId))
    tombstones := batchId :: s.tombstones }

/-- Modelled from the spec: a worker commits the terminal state of job
seq of batch batchId; the result of an in-flight render for a tombstoned
batch is discarded rather than committed (spec section 5, Cancellation).
Commits never insert a batch, they only update an existing entry. -/
def commitJobResult (s : CatalogStore) (batchId : String) (seq : Nat)
    (newState : JobState) : CatalogStore :=
  if s.tombstones.contains batchId then s
  else
    { s with
      entries := s.entries.map (fun e =>
        if e.1 == batchId then
          (e.1, { e.2 with jobs := e.2.jobs.map (fun j =>
            if j.record.no == seq then { j with state := newState } else j) })
        else e) }

/-- The deleted-batch invariant: the id is tombstoned and owns no catalog
entry. -/
def DeletedFrom (s : CatalogStore) (batchId : String) : Prop :=
  batchId ∈ s.tombstones ∧ ∀ e ∈ s.entries, e.1 ≠ batchId

lemma deletedFrom_deleteBatch (s : CatalogStore) (batchId : String) :
    DeletedFrom (deleteBatch s batchId) batchId := by
  constructor
  · exact List.mem_cons_self _ _
  · intro e he
    rw [deleteBatch] at he
    have := List.of_mem_filter he
    simpa using this

lemma deletedFrom_commit (s : CatalogStore) (batchId : String)
    (c : String × Nat × JobState) (h : DeletedFrom s batchId) :
    DeletedFrom (commitJobResult s c.1 c.2.1 c.2.2) batchId := by
  obtain ⟨ht, he⟩ := h
  unfold commitJobResult
  by_cases hc : s.tombstones.contains c.1
  · rw [if_pos hc]
    exact ⟨ht, he⟩
  · rw [if_neg hc]
    refine ⟨ht, ?_⟩
    intro e hmem
    rw [List.mem_map] at hmem
    obtain ⟨e0, he0, heq⟩ := hmem
    by_cases hk : e0.1 == c.1
    · rw [if_pos hk] at heq
      rw [← heq]
      exact he e0 he0
    · rw [if_neg hk] at heq
      rw [← heq]
      exact he e0 he0

lemma deletedFrom_commits (batchId : String)
    (commits : List (String × Nat × JobState)) :
    ∀ s : CatalogStore, DeletedFrom s batchId →
      DeletedFrom (commits.foldl
        (fun st c => commitJobResult st c.1 c.2.1 c.2.2) s) batchId := by
  induction commits with
  | nil => exact fun s h => h
  | cons c rest ih =>
    intro s h
    exact ih _ (deletedFrom_commit s batchId c h)

lemma deletedFrom_notFound (s : CatalogStore) (batchId : String)
    (h : DeletedFrom s batchId) :
    getBatch s batchId = .error .notFound ∧ batchId ∉ listBatches s := by
  obtain ⟨_, he⟩ := h
  constructor
  · unfold getBatch
    have hfind : s.entries.find? (fun e => e.1 == batchId) = none := by
      rw [List.find?_eq_none]
      intro e hmem
      have := he e hmem
      simpa using this
    rw [hfind]
  · intro hmem
    rw [listBatches, List.mem_map] at hmem
    obtain ⟨e, hmem, heq⟩ := hmem
    exact he e hmem heq

/-- C7: after deleteBatch the batch is absent from every listBatches
result and getBatch returns NotFound, and this stays true after any
sequence of worker commits — an in-flight worker result for the deleted
batch is discarded, never resurrecting it. -/
theorem deleteBatch_tombstones (s : CatalogStore) (batchId : String)
    (commits : List (String × Nat × JobState)) :
    batchId ∉ listBatches (deleteBatch s batchId)
    ∧ getBatch (deleteBatch s batchId) batchId = .error .notFound
    ∧ getBatch (commits.foldl
        (fun st c => commitJobResult st c.1 c.2.1 c.2.2)
        (deleteBatch s batchId)) batchId = .error .notFound
    ∧ batchId ∉ listBatches (commits.foldl
        (fun st c => commitJobResult st c.1 c.2.1 c.2.2)
        (deleteBatch s batchId)) := by
  have h0 := deletedFrom_deleteBatch s batchId
  have h1 := deletedFrom_notFound _ _ h0
  have h2 := deletedFrom_notFound _ _ (deletedFrom_commits batchId commits _ h0)
  exact ⟨h1.2, h1.1, h2.1, h2.2⟩

/-- Modelled from the spec: the scheduling state of the fixed-width
worker pool — renderer jobs still queued and jobs whose renderer
invocation is in flight, each tagged with the id of its batch; the pool
is shared across all batches (spec section 5). -/
structure PoolState where
  queued : List String
  inFlight : List String
  deriving DecidableEq

/-- Modelled from the spec: pool scheduling steps — a worker may start a
queued job only while fewer than w renderer invocations are in flight,
and any in-flight invocation may finish (spec sections 4.3 step 2
and 5). -/
inductive PoolStep (w : Nat) : PoolState → PoolState → Prop
  | start (q₁ q₂ : List String) (b : String) (fl : List String) :
      fl.length < w →
      PoolStep w ⟨q₁ ++ b :: q₂, fl⟩ ⟨q₁ ++ q₂, b :: fl⟩
  | finish (q : List String) (f₁ f₂ : List String) (b : String) :
      PoolStep w ⟨q, f₁ ++ b :: f₂⟩ ⟨q, f₁ ++ f₂⟩

/-- Total work remaining; strictly decreases on every scheduling step. -/
def poolMeasure (s : PoolState) : Nat :=
  2 * s.queued.length + s.inFlight.length

/-- C8: from an initial state with no render in flight — any mix of
batches in the queue — every reachable state keeps at most w renderer
invocations in flight; every scheduling step strictly decreases the
remaining work, and whenever work remains a step is possible, so every
submitted batch eventually reaches a terminal status. -/
theorem pool_bounds_and_terminates (w : Nat) (s0 s t : PoolState)
    (hw : 0 < w) (h0 : s0.inFlight = [])
    (hreach : Relation.ReflTransGen (PoolStep w) s0 s) :
    s.inFlight.length ≤ w
    ∧ (PoolStep w s t → poolMeasure t < poolMeasure s)
    ∧ (s.queued ≠ [] ∨ s.inFlight ≠ [] → ∃ u, PoolStep w s u) := by
  have hbound : ∀ s2 : PoolState, Relation.ReflTransGen (PoolStep w) s0 s2 →
      s2.inFlight.length ≤ w := by
    intro s2 h2
    induction h2 with
    | refl =>
      rw [h0]
      exact Nat.zero_le w
    | tail _ hstep ih =>
      cases hstep with
      | start q₁ q₂ b fl hlt => simpa using hlt
      | finish q f₁ f₂ b =>
        simp only [List.length_append, List.length_cons] at ih ⊢
        omega
  refine ⟨hbound s hreach, ?_, ?_⟩
  · intro hstep
    cases hstep with
    | start q₁ q₂ b fl hlt =>
      unfold poolMeasure
      simp only [List.length_append, List.length_cons]
      omega
    | finish q f₁ f₂ b =>
      unfold poolMeasure
      simp only [List.length_append, List.length_cons]
      omega
  · intro hwork
    cases hf : s.inFlight with
    | cons b fs =>
      exact ⟨⟨s.queued, fs⟩, by
        have : s = ⟨s.queued, [] ++ b :: fs⟩ := by
          cases s
          simp at hf
          simp [hf]
        rw [this]
        exact PoolStep.finish s.queued [] fs b⟩
    | nil =>
      cases hq : s.queued with
      | nil =>
        exfalso
        rcases hwork with h | h
        · exact h hq
        · exact h hf
      | cons b qs =>
        refine ⟨⟨qs, [b]⟩, ?_⟩
        have : s = ⟨[] ++ b :: qs, []⟩ := by
          cases s
          simp at hq hf
          simp [hq, hf]
        rw [this]
        exact PoolStep.start [] qs b [] (by simpa [hf] using hw)

/-- C8 witness: two batches of fifty records each share a pool of width
four; at the initial state nothing is in flight, the bound holds, steps
shrink the remaining work, and work being present guarantees progress. -/
theorem pool_bounds_and_terminates_witness :
    (PoolState.mk (List.replicate 50 "batchA" ++ List.replicate 50 "batchB")
        []).inFlight.length ≤ 4
    ∧ (PoolStep 4
        ⟨List.replicate 50 "batchA" ++ List.replicate 50 "batchB", []⟩
        ⟨List.replicate 49 "batchA" ++ List.replicate 50 "batchB", ["batchA"]⟩ →
      poolMeasure ⟨List.replicate 49 "batchA" ++ List.replicate 50 "batchB",
          ["batchA"]⟩
        < poolMeasure ⟨List.replicate 50 "batchA" ++ List.replicate 50 "batchB",
          []⟩)
    ∧ ((PoolState.mk (List.replicate 50 "batchA" ++ List.replicate 50 "batchB")
          []).queued ≠ []
        ∨ (PoolState.mk (List.replicate 50 "batchA" ++ List.replicate 50 "batchB")
          []).inFlight ≠ [] →
      ∃ u, PoolStep 4
        ⟨List.replicate 50 "batchA" ++ List.replicate 50 "batchB", []⟩ u) :=
  pool_bounds_and_terminates 4 _ _ _ (by decide) rfl Relation.ReflTransGen.refl

/-- From src/frontend/src/lib/api.ts: the API base URL. -/
def API_BASE_URL : String := "http://localhost:8080"

/-- From src/frontend/src/lib/api.ts (getDownloadUrl): the optional
filename is tested with JavaScript truthiness, so both an omitted
filename and the empty string select the batch-archive URL. -/
def getDownloadUrl (batchId : String) (filename : Option String) : String :=
  let base := API_BASE_URL ++ "/api/v1/ticket"
  match filename with
  | some f =>
    if f = "" then base ++ "/download/batch/" ++ batchId
    else base ++ "/download/pdf/" ++ batchId ++ "/" ++ f
  | none => base ++ "/download/batch/" ++ batchId

/-- C9 counterexample: with the empty string as filename the function
returns the batch-archive URL, not the per-file URL the claim states. -/
theorem getDownloadUrl_empty_filename_ce :
    getDownloadUrl "b9" (some "")
      ≠ "http://localhost:8080/api/v1/ticket/download/pdf/" ++ "b9" ++ "/" ++ "" := by
  decide

/-- C9 (amended): for every batch id and every non-empty filename the
helper returns the per-file download URL, and with the filename omitted
it returns the batch-archive URL. -/
theorem getDownloadUrl_spec (batchId f : String) (hf : f ≠ "") :
    getDownloadUrl batchId (some f)
      = "http://localhost:8080/api/v1/ticket/download/pdf/"
          ++ batchId ++ "/" ++ f
    ∧ getDownloadUrl batchId none
      = "http://localhost:8080/api/v1/ticket/download/batch/" ++ batchId := by
  constructor
  · unfold getDownloadUrl
    dsimp only
    rw [if_neg hf,
      show API_BASE_URL ++ "/api/v1/ticket" ++ "/download/pdf/"
        = "http://localhost:8080/api/v1/ticket/download/pdf/" from rfl]
  · rfl

/-- C9 witness: the amended statement at a concrete batch id and
filename. -/
theorem getDownloadUrl_spec_witness :
    getDownloadUrl "abc123" (some "ticket_1.pdf")
      = "http://localhost:8080/api/v1/ticket/download/pdf/"
          ++ "abc123" ++ "/" ++ "ticket_1.pdf"
    ∧ getDownloadUrl "abc123" none
      = "http://localhost:8080/api/v1/ticket/download/batch/" ++ "abc123" :=
  getDownloadUrl_spec "abc123" "ticket_1.pdf" (by decide)

/-- JavaScript String.prototype.lastIndexOf for a single character, over
the code-unit list: index of the last occurrence, or -1. -/
def jsLastIndexOf : List Char → Char → Int
  | [], _ => -1
  | a :: rest, c =>
    let r := jsLastIndexOf rest c
    if 0 ≤ r then r + 1
    else if a = c then 0 else -1

/-- JavaScript String.prototype.slice with one argument: the start index,
clamped, counting from the end when negative. -/
def jsSliceStart (len : Nat) (i : Int) : Nat :=
  if i < 0 then ((len : Int) + i).toNat else min i.toNat len

def jsSlice (l : List Char) (i : Int) : List Char :=
  l.drop (jsSliceStart l.length i)

/-- Per-code-unit lowercasing, the model of toLowerCase. -/
def toLowerStr (l : List Char) : List Char :=
  l.map Char.toLower

/-- From src/frontend/src/app/upload/[id]/page.tsx (processUpload):
the accepted spreadsheet extensions. -/
def validExtensions : List (List Char) :=
  [".xlsx".toList, ".xls".toList]

/-- From src/frontend/src/app/upload/[id]/page.tsx (processUpload):
fileExtension = file.name.toLowerCase().slice(file.name.lastIndexOf(".")) —
lastIndexOf runs on the original name, slice on the lowercased one. -/
def fileExtension (name : List Char) : List Char :=
  jsSlice (toLowerStr name) (jsLastIndexOf name '.')

/-- What the processUpload handler does before any network traffic. -/
inductive UploadAction where
  | rejectedInvalidType
  | uploadRequested
  deriving DecidableEq

/-- From src/frontend/src/app/upload/[id]/page.tsx (processUpload): if the
computed extension is not one of the valid ones, set the error message
and return without calling api.uploadFile; otherwise call it. -/
def processUpload (name : List Char) : UploadAction :=
  if fileExtension name ∉ validExtensions then .rejectedInvalidType
  else .uploadRequested

/-- The lowercased name ends in ".xlsx" or ".xls". -/
def endsWithValidExt (name : List Char) : Bool :=
  ".xlsx".toList.isSuffixOf (toLowerStr name)
    || ".xls".toList.isSuffixOf (toLowerStr name)

lemma fileExtension_suffix (name : List Char) :
    fileExtension name <:+ toLowerStr name := by
  unfold fileExtension jsSlice
  exact List.drop_suffix _ _

lemma mem_validExtensions_endsWith (name : List Char)
    (h : fileExtension name ∈ validExtensions) :
    endsWithValidExt name = true := by
  have hsuf := fileExtension_suffix name
  unfold endsWithValidExt
  rw [validExtensions] at h
  rcases List.mem_pair.mp h with he | he
  · rw [he] at hsuf
    rw [Bool.or_eq_true, List.isSuffixOf_iff_suffix]
    exact Or.inl hsuf
  · rw [he] at hsuf
    rw [Bool.or_eq_true, List.isSuffixOf_iff_suffix, List.isSuffixOf_iff_suffix]
    exact Or.inr hsuf

/-- C10: a file whose lowercased name does not end in ".xlsx" or ".xls"
is rejected by processUpload with no upload request, and an upload
request is issued only when the lowercased name has one of those two
extensions. -/
theorem processUpload_extension_guard (name : List Char)
    (h : endsWithValidExt name = false) :
    processUpload name = .rejectedInvalidType
    ∧ ∀ m : List Char, processUpload m = .uploadRequested →
        endsWithValidExt m = true := by
  constructor
  · unfold processUpload
    rw [if_pos]
    intro hmem
    rw [mem_validExtensions_endsWith name hmem] at h
    exact absurd h (by decide)
  · intro m hm
    unfold processUpload at hm
    by_cases hmem : fileExtension m ∈ validExtensions
    · exact mem_validExtensions_endsWith m hmem
    · rw [if_pos hmem] at hm
      exact absurd hm (by decide)

/-- C10 witness: a ".exe" upload is rejected without any request, and the
only-valid-extensions direction instantiated there as well. -/
theorem processUpload_extension_guard_witness :
    processUpload "virus.exe".toList = .rejectedInvalidType
    ∧ ∀ m : List Char, processUpload m = .uploadRequested →
        endsWithValidExt m = true :=
  processUpload_extension_guard "virus.exe".toList (by decide)

end AirlineTickets
